import Mathlib

/-!
Shallow embedding of the stock-forecast app core (`src/app.py`):
symbol resolution, session validity state machine, history/favorites store
operations, and the forecast-orchestration step, with external collaborators
(market-data download, model fitting, translation, the relational store)
represented by explicit outcome parameters.
-/

namespace StockApp

/-! ## Translation guard (`translate_to_english`, app.py lines 39-48)

The Python code invokes the translator only when some character has a code
point above 255 (`any(ord(char) > 255 for char in text)`); any exception is
swallowed and the original text returned.  The collaborator is modelled as a
`String → Option String`, `none` standing for a raised exception. -/

def containsOver255 (text : String) : Bool :=
  text.data.any (fun c => 255 < c.toNat)

def translate_to_english (translator : String → Option String) (text : String) : String :=
  if containsOver255 text then
    match translator text with
    | some translated => translated
    | none => text
  else text

/-- ASCII-only: every character's code point is at most 127. -/
def asciiOnly (text : String) : Bool :=
  text.data.all (fun c => c.toNat ≤ 127)

/-! ## History read view (`get_history`, app.py lines 81-87)

The store query returns the user's rows ordered by timestamp descending,
LIMIT 5; `dict.fromkeys` then collapses duplicates keeping the first (= most
recent) occurrence.  The per-user insertion sequence is modelled as a list of
symbols, oldest first, so the descending-timestamp view is its reverse. -/

def dedupFirstAux (seen : List String) : List String → List String
  | [] => []
  | x :: xs =>
    if x ∈ seen then dedupFirstAux seen xs
    else x :: dedupFirstAux (x :: seen) xs

/-- `dict.fromkeys`: drop duplicates, keeping the first occurrence of each
symbol and preserving order. -/
def dedupKeepFirst (l : List String) : List String :=
  dedupFirstAux [] l

/-- `get_history`: SELECT ... ORDER BY timestamp DESC LIMIT 5, then dedup. -/
def get_history (rows : List String) : List String :=
  dedupKeepFirst (rows.reverse.take 5)

/-- Modelled from the spec: the §4.3 read contract — up to 5 most-recent
distinct symbols of the FULL insertion sequence, most recent first, each
symbol represented by its most recent occurrence. -/
def get_history_spec (rows : List String) : List String :=
  (dedupKeepFirst rows.reverse).take 5

/-! ## Python string primitives

`str.upper` and `str.strip` embedded over the character list (ASCII case
mapping, whitespace stripping at both ends). -/

def pyUpper (s : String) : String :=
  { data := s.data.map Char.toUpper }

def pyStrip (s : String) : String :=
  { data := ((s.data.dropWhile Char.isWhitespace).reverse.dropWhile
      Char.isWhitespace).reverse }

/-! ## Session state (`st.session_state` keys used by the core) -/

structure SessionState where
  search_symbol : String
  is_valid_symbol : Bool
  last_searched : Option String
  last_input_symbol : Option String
  ticker_search_input : Option String
  deriving Repr, DecidableEq

/-- Initial per-session defaults (app.py lines 192-196). -/
def initSession : SessionState :=
  { search_symbol := "AAPL"
    is_valid_symbol := false
    last_searched := none
    last_input_symbol := none
    ticker_search_input := none }

/-! ## Confirmed-symbol input (app.py lines 218-221)

`symbol = st.text_input(..., value=current_symbol).upper()`; whenever the
uppercased text differs from `last_input_symbol`, the validity flag is reset
and the recorded input updated. -/

/-- Line 218: the displayed text is uppercased (and only uppercased). -/
def effectiveSymbol (raw : String) : String :=
  pyUpper raw

def symbolInputStep (s : SessionState) (raw : String) : SessionState :=
  let symbol := effectiveSymbol raw
  if s.last_input_symbol ≠ some symbol then
    { s with is_valid_symbol := false, last_input_symbol := some symbol }
  else s

/-! ## Forecast request step (app.py lines 248-312)

External outcomes: `FetchOutcome` is what `yf.download` does (raise, or
return a frame with `n` rows — `data.empty` is `n = 0`); `FitOutcome` covers
the model-fitting/prediction phase inside the same `try`.  The step returns
the new session state, the user's history insertion sequence, and the symbol
passed to `yf.download` (`none` when download is never invoked). -/

inductive FetchOutcome where
  | raises
  | returns (n : Nat)
  deriving Repr, DecidableEq

inductive FitOutcome where
  | raises
  | fits
  deriving Repr, DecidableEq

structure PredictResult where
  session : SessionState
  history : List String
  downloadCalled : Option String
  deriving Repr, DecidableEq

def predictStep (s : SessionState) (hist : List String) (symbol : String)
    (fetch : FetchOutcome) (fit : FitOutcome) : PredictResult :=
  if pyStrip symbol = "" then
    { session := s, history := hist, downloadCalled := none }
  else
    let s1 := { s with search_symbol := symbol, last_searched := some symbol }
    match fetch with
    | .raises =>
      { session := { s1 with is_valid_symbol := false }
        history := hist, downloadCalled := some symbol }
    | .returns n =>
      if n = 0 ∨ n < 10 then
        { session := { s1 with is_valid_symbol := false }
          history := hist, downloadCalled := some symbol }
      else
        match fit with
        | .raises =>
          { session := { s1 with is_valid_symbol := false }
            history := hist ++ [symbol], downloadCalled := some symbol }
        | .fits =>
          { session := { s1 with is_valid_symbol := true }
            history := hist ++ [symbol], downloadCalled := some symbol }

/-! ## Sidebar selection (app.py lines 167-187) and favorite-add guard
(lines 236-244)

Clicking a favorites or recent-search button stores the chosen symbol, blanks
the free-text search box if present, and clears the validity flag.  The
favorite-add button first rejects a blank symbol, then rejects when the
validity flag is off, and only then attempts the store insert (which may be
refused, e.g. by the uniqueness constraint). -/

def sidebarSelect (s : SessionState) (symbol : String) : SessionState :=
  let s1 := { s with search_symbol := symbol }
  let s2 :=
    match s1.ticker_search_input with
    | some _ => { s1 with ticker_search_input := some "" }
    | none => s1
  { s2 with is_valid_symbol := false }

inductive FavAddOutcome where
  | emptySymbol
  | notValidated
  | added
  | storeRejected
  deriving Repr, DecidableEq

def favoriteAddAction (s : SessionState) (symbol : String) (storeAccepts : Bool) :
    FavAddOutcome :=
  if pyStrip symbol = "" then .emptySymbol
  else if s.is_valid_symbol = false then .notValidated
  else if storeAccepts then .added
  else .storeRejected

/-! ## Account deletion (`delete_account`, app.py lines 104-113)

Three sequential deletes inside one `try`; a step that throws aborts the
function with `False`, leaving the tables already processed deleted.  Each
step's possible failure is an explicit Boolean. -/

structure DB where
  users : List String
  history : List (String × String)
  favorites : List (String × String)
  deriving Repr, DecidableEq

def delete_account (user : String) (db : DB)
    (histThrows favThrows userThrows : Bool) : Bool × DB :=
  if histThrows then (false, db)
  else
    let db1 := { db with history := db.history.filter (fun r => r.1 ≠ user) }
    if favThrows then (false, db1)
    else
      let db2 := { db1 with favorites := db1.favorites.filter (fun r => r.1 ≠ user) }
      if userThrows then (false, db2)
      else (true, { db2 with users := db2.users.filter (fun u => u ≠ user) })

/-! ## Forecast dates (app.py lines 286-289)

Dates are day numbers with the epoch aligned so that `d % 7` is pandas's
`dayofweek` (Monday = 0, ..., Sunday = 6).  `make_future_dataframe` keeps the
training dates and appends the next 10 calendar days; the frame is then
filtered to `day_of_week < 5` before `model.predict` runs on it. -/

def day_of_week (d : Nat) : Nat := d % 7

def isSaturday (d : Nat) : Bool := day_of_week d = 5

def isSunday (d : Nat) : Bool := day_of_week d = 6

def lastDate (hist : List Nat) : Nat := hist.foldl max 0

def make_future_dataframe (hist : List Nat) (periods : Nat) : List Nat :=
  hist ++ (List.range periods).map (fun i => lastDate hist + (i + 1))

/-- The frame actually handed to `model.predict`: historical dates plus a
10-day extension, with `day_of_week ≥ 5` rows dropped. -/
def predictionIndex (hist : List Nat) : List Nat :=
  (make_future_dataframe hist 10).filter (fun d => day_of_week d < 5)

structure ForecastPoint where
  ds : Nat
  yhat : Int
  yhat_lower : Int
  yhat_upper : Int
  deriving Repr, DecidableEq

/-- `model.predict` produces one row per date of the input frame; the numeric
columns come from the fitted model, modelled as an oracle. -/
def predictRows (model : Nat → Int × Int × Int) (hist : List Nat) :
    List ForecastPoint :=
  (predictionIndex hist).map
    (fun d => { ds := d, yhat := (model d).1
                yhat_lower := (model d).2.1, yhat_upper := (model d).2.2 })

/-! ## Helper lemmas -/

theorem dedupFirstAux_length_le (seen l : List String) :
    (dedupFirstAux seen l).length ≤ l.length := by
  induction l generalizing seen with
  | nil => simp [dedupFirstAux]
  | cons x xs ih =>
    unfold dedupFirstAux
    split
    · exact le_trans (ih seen) (Nat.le_succ _)
    · simpa using ih (x :: seen)

theorem dedupFirstAux_take (l : List String) : ∀ (n : Nat) (seen : List String),
    (l.take n).Nodup → (∀ y ∈ l.take n, y ∉ seen) →
    (dedupFirstAux seen l).take n = l.take n := by
  induction l with
  | nil => intro n seen _ _; simp [dedupFirstAux]
  | cons x xs ih =>
    intro n seen hnd hseen
    cases n with
    | zero => simp
    | succ m =>
      rw [List.take_succ_cons] at hnd hseen
      have hxseen : x ∉ seen := hseen x (List.mem_cons_self x _)
      obtain ⟨hx, hnds⟩ := List.nodup_cons.mp hnd
      unfold dedupFirstAux
      rw [if_neg hxseen, List.take_succ_cons, List.take_succ_cons]
      congr 1
      refine ih m (x :: seen) hnds (fun y hy hmem => ?_)
      rcases List.mem_cons.mp hmem with h1 | h2
      · exact hx (h1 ▸ hy)
      · exact hseen y (List.mem_cons_of_mem x hy) h2

theorem dedupKeepFirst_take (l : List String) (n : Nat) (h : (l.take n).Nodup) :
    (dedupKeepFirst l).take n = l.take n :=
  dedupFirstAux_take l n [] h (by simp)

theorem dedupKeepFirst_eq_self (l : List String) (h : l.Nodup) :
    dedupKeepFirst l = l := by
  have h1 : (dedupFirstAux [] l).take l.length = l.take l.length :=
    dedupFirstAux_take l l.length [] (by simpa [List.take_length] using h) (by simp)
  have h2 : (dedupFirstAux [] l).length ≤ l.length := dedupFirstAux_length_le [] l
  calc dedupKeepFirst l
      = (dedupFirstAux [] l).take l.length := (List.take_of_length_le h2).symm
    _ = l.take l.length := h1
    _ = l := List.take_length l

theorem mem_predictionIndex_weekday (hist : List Nat) (d : Nat)
    (hd : d ∈ predictionIndex hist) : day_of_week d < 5 := by
  unfold predictionIndex at hd
  simpa using (List.mem_filter.mp hd).2

theorem not_weekend_of_weekday_lt (d : Nat) (h : day_of_week d < 5) :
    isSaturday d = false ∧ isSunday d = false := by
  unfold isSaturday isSunday
  constructor <;> simp <;> omega

theorem mem_predictRows_weekday (model : Nat → Int × Int × Int)
    (hist : List Nat) (p : ForecastPoint) (hp : p ∈ predictRows model hist) :
    day_of_week p.ds < 5 := by
  unfold predictRows at hp
  obtain ⟨d, hd, hdp⟩ := List.mem_map.mp hp
  have hds : p.ds = d := by rw [← hdp]
  rw [hds]
  exact mem_predictionIndex_weekday hist d hd

/-! ## Claim theorems -/

/-- C2 (counterexample): with insertions Z, A, A, B, C, D (oldest first),
`get_history` returns only D, C, B, A — it misses the older distinct symbol Z
because the LIMIT 5 is applied before deduplication, while the spec's
full-sequence contract would return D, C, B, A, Z. -/
theorem get_history_misses_older_distinct :
    get_history ["Z", "A", "A", "B", "C", "D"] = ["D", "C", "B", "A"] ∧
    get_history_spec ["Z", "A", "A", "B", "C", "D"] = ["D", "C", "B", "A", "Z"] ∧
    get_history ["Z", "A", "A", "B", "C", "D"] ≠
      get_history_spec ["Z", "A", "A", "B", "C", "D"] := by
  decide

/-- C2 (amended): `get_history` returns the recency-ordered dedup of the 5
most recent insertions, not of the full insertion sequence; it agrees with
the full-sequence contract whenever the 5 most recent insertions are pairwise
distinct, and insertions A, B, A, C still yield C, A, B. -/
theorem get_history_dedups_recent_five :
    (∀ rows : List String, (rows.reverse.take 5).Nodup →
      get_history rows = get_history_spec rows) ∧
    get_history ["A", "B", "A", "C"] = ["C", "A", "B"] := by
  constructor
  · intro rows h
    have hspec : get_history_spec rows = rows.reverse.take 5 :=
      dedupKeepFirst_take rows.reverse 5 h
    have hcode : get_history rows = rows.reverse.take 5 :=
      dedupKeepFirst_eq_self (rows.reverse.take 5) h
    rw [hcode, hspec]
  · decide

/-- C2 (witness): the dedup window and the full-sequence contract agree on a
concrete duplicate-free insertion sequence. -/
theorem get_history_dedups_recent_five_witness :
    get_history ["X", "Y", "W"] = get_history_spec ["X", "Y", "W"] :=
  get_history_dedups_recent_five.1 ["X", "Y", "W"] (by decide)

/-- C4 (counterexample): the query consisting of the single character with
code point 233 is not ASCII-only, yet `translate_to_english` returns it
unchanged without consulting the translator (a translator answering
TRANSLATED is ignored), because the guard tests code points above 255, not
non-ASCII. -/
theorem latin1_query_not_translated :
    asciiOnly "é" = false ∧
    translate_to_english (fun _ => some "TRANSLATED") "é" = "é" := by
  decide

/-- C4 (amended): ASCII-only queries are returned unchanged; the translation
collaborator is invoked exactly when some character's code point exceeds 255
(so Latin-1 accented queries pass through untranslated); when invoked, a
successful translation is returned and a failure falls back to the original
query. -/
theorem translate_guard_over255 (translator : String → Option String)
    (text : String) :
    (asciiOnly text = true → translate_to_english translator text = text) ∧
    (containsOver255 text = false → translate_to_english translator text = text) ∧
    (containsOver255 text = true → translator text = none →
      translate_to_english translator text = text) ∧
    (∀ t, containsOver255 text = true → translator text = some t →
      translate_to_english translator text = t) := by
  refine ⟨?_, ?_, ?_, ?_⟩
  · intro hascii
    have hno : containsOver255 text = false := by
      unfold containsOver255
      unfold asciiOnly at hascii
      simp only [List.all_eq_true] at hascii
      simp only [List.any_eq_false]
      intro c hc
      have := hascii c hc
      simp at this ⊢
      omega
    simp [translate_to_english, hno]
  · intro hno
    simp [translate_to_english, hno]
  · intro hyes hfail
    simp [translate_to_english, hyes, hfail]
  · intro t hyes hok
    simp [translate_to_english, hyes, hok]

/-- C4 (witness): a plain ASCII ticker query is returned unchanged even when
the translator would fail. -/
theorem translate_guard_over255_witness :
    translate_to_english (fun _ => none) "AAPL" = "AAPL" :=
  (translate_guard_over255 (fun _ => none) "AAPL").1 (by decide)

/-- C5: every forecast point lying strictly past the last observed date (the
future horizon of the 10-day extension) falls on a weekday — never on a
Saturday or a Sunday. -/
theorem future_points_no_weekend (model : Nat → Int × Int × Int)
    (hist : List Nat) (p : ForecastPoint)
    (hp : p ∈ predictRows model hist) (_hfut : lastDate hist < p.ds) :
    isSaturday p.ds = false ∧ isSunday p.ds = false :=
  not_weekend_of_weekday_lt p.ds (mem_predictRows_weekday model hist p hp)

/-- C5 (witness): with a single observed date on a Monday, the future point
at day 8 is in the prediction rows, lies past the last observed date, and is
neither a Saturday nor a Sunday. -/
theorem future_points_no_weekend_witness :
    isSaturday (ForecastPoint.ds ⟨8, 0, 0, 0⟩) = false ∧
    isSunday (ForecastPoint.ds ⟨8, 0, 0, 0⟩) = false :=
  future_points_no_weekend (fun _ => (0, 0, 0)) [0] ⟨8, 0, 0, 0⟩
    (by decide) (by decide)

/-- C9: the Saturday/Sunday filter is applied to the whole prediction frame,
so no forecast point at all falls on a weekend; concretely, a historical
series containing the Saturday date 5 loses that row, and the historical part
of the prediction index for the series 4, 5, 6, 7 is the strict subset 4, 7. -/
theorem weekend_filter_entire_index :
    (∀ (model : Nat → Int × Int × Int) (hist : List Nat) (p : ForecastPoint),
      p ∈ predictRows model hist →
      isSaturday p.ds = false ∧ isSunday p.ds = false) ∧
    ((5 : Nat) ∈ [4, 5, 6, 7] ∧ isSaturday 5 = true ∧
      (5 : Nat) ∉ predictionIndex [4, 5, 6, 7] ∧
      (predictionIndex [4, 5, 6, 7]).filter
        (fun d => d ≤ lastDate [4, 5, 6, 7]) = [4, 7]) := by
  constructor
  · intro model hist p hp
    exact not_weekend_of_weekday_lt p.ds (mem_predictRows_weekday model hist p hp)
  · decide

/-- C9 (witness): the historical weekday 4 survives into the prediction rows
of the weekend-containing series 4, 5, 6, 7 and is not a weekend date. -/
theorem weekend_filter_entire_index_witness :
    isSaturday (ForecastPoint.ds ⟨4, 0, 0, 0⟩) = false ∧
    isSunday (ForecastPoint.ds ⟨4, 0, 0, 0⟩) = false :=
  weekend_filter_entire_index.1 (fun _ => (0, 0, 0)) [4, 5, 6, 7]
    ⟨4, 0, 0, 0⟩ (by decide)

/-- C1 (counterexample): a run whose fetch returns 100 rows but whose model
fit raises ends with the validity flag False, yet the history entry for the
symbol has already been recorded — refuting that no history is recorded on
every ForecastEngine failure. -/
theorem fit_error_still_records_history :
    (predictStep initSession [] "AAPL" (FetchOutcome.returns 100)
      FitOutcome.raises).session.is_valid_symbol = false ∧
    (predictStep initSession [] "AAPL" (FetchOutcome.returns 100)
      FitOutcome.raises).history = ["AAPL"] := by
  decide

/-- C1 (amended): on a FetchError or InsufficientData failure the validity
flag ends False and no history entry is recorded; on a FitError the validity
flag still ends False, but the history entry has already been recorded before
the failure (history is written right after the fetched series passes the
length check, before the model fit). -/
theorem forecast_failure_invalidates (s : SessionState) (hist : List String)
    (symbol : String) (n : Nat) (fit : FitOutcome)
    (hsym : pyStrip symbol ≠ "") :
    ((predictStep s hist symbol FetchOutcome.raises fit).session.is_valid_symbol
        = false ∧
      (predictStep s hist symbol FetchOutcome.raises fit).history = hist) ∧
    (n < 10 →
      (predictStep s hist symbol (FetchOutcome.returns n)
          fit).session.is_valid_symbol = false ∧
      (predictStep s hist symbol (FetchOutcome.returns n) fit).history = hist) ∧
    (10 ≤ n →
      (predictStep s hist symbol (FetchOutcome.returns n)
          FitOutcome.raises).session.is_valid_symbol = false ∧
      (predictStep s hist symbol (FetchOutcome.returns n)
          FitOutcome.raises).history = hist ++ [symbol]) := by
  refine ⟨?_, ?_, ?_⟩
  · simp [predictStep, hsym]
  · intro hn
    simp [predictStep, hsym, hn]
  · intro hn
    have hge : ¬(n = 0 ∨ n < 10) := by omega
    simp [predictStep, hsym, hge]

/-- C1 (witness): a failed fetch for a concrete non-blank symbol leaves the
validity flag False. -/
theorem forecast_failure_invalidates_witness :
    (predictStep initSession [] "TSLA" FetchOutcome.raises
      FitOutcome.fits).session.is_valid_symbol = false :=
  (forecast_failure_invalidates initSession [] "TSLA" 3 FitOutcome.fits
    (by decide)).1.1

/-- C3 (counterexample): the raw input with surrounding blanks is only
uppercased, never trimmed — the effective symbol keeps its blanks, differs
from the trim-then-uppercase normalization, and the download is invoked with
the untrimmed string. -/
theorem effective_symbol_not_trimmed :
    effectiveSymbol " aapl " = " AAPL " ∧
    effectiveSymbol " aapl " ≠ pyUpper (pyStrip " aapl ") ∧
    (predictStep initSession [] (effectiveSymbol " aapl ")
      (FetchOutcome.returns 100) FitOutcome.fits).downloadCalled
        = some " AAPL " := by
  decide

/-- C3 (amended): the effective symbol is the uppercased (untrimmed) input;
emptiness is tested on the stripped text, and when the symbol is blank after
stripping the request fails fast — state and history unchanged, download
never invoked — while otherwise the download is invoked with the uppercased,
untrimmed symbol. -/
theorem empty_symbol_fails_fast (raw : String) (s : SessionState)
    (hist : List String) (fetch : FetchOutcome) (fit : FitOutcome) :
    (pyStrip (effectiveSymbol raw) = "" →
      predictStep s hist (effectiveSymbol raw) fetch fit =
        { session := s, history := hist, downloadCalled := none }) ∧
    (pyStrip (effectiveSymbol raw) ≠ "" →
      (predictStep s hist (effectiveSymbol raw) fetch fit).downloadCalled
        = some (effectiveSymbol raw)) := by
  constructor
  · intro h
    unfold predictStep
    rw [if_pos h]
  · intro h
    cases fetch with
    | raises => simp [predictStep, h]
    | returns n =>
      by_cases hn : n = 0 ∨ n < 10
      · simp [predictStep, h, hn]
      · cases fit <;> simp [predictStep, h, hn]

/-- C3 (witness): a whitespace-only input fails fast — nothing changes and no
download happens. -/
theorem empty_symbol_fails_fast_witness :
    predictStep initSession ["MSFT"] (effectiveSymbol "  ")
      (FetchOutcome.returns 100) FitOutcome.fits =
      { session := initSession, history := ["MSFT"], downloadCalled := none } :=
  (empty_symbol_fails_fast "  " initSession ["MSFT"]
    (FetchOutcome.returns 100) FitOutcome.fits).1 (by decide)

/-- C7: whenever the uppercased confirmed-symbol text differs from the
previously recorded input, the validity flag is reset to False and the
recorded input is updated — for every prior session state, Valid or
Invalid. -/
theorem edit_resets_validity (s : SessionState) (raw : String)
    (h : s.last_input_symbol ≠ some (effectiveSymbol raw)) :
    (symbolInputStep s raw).is_valid_symbol = false ∧
    (symbolInputStep s raw).last_input_symbol = some (effectiveSymbol raw) := by
  unfold symbolInputStep
  rw [if_pos h]
  exact ⟨rfl, rfl⟩

/-- C7 (witness): editing the symbol in a session whose flag is Valid resets
the flag to False and records the new input. -/
theorem edit_resets_validity_witness :
    (symbolInputStep { initSession with is_valid_symbol := true }
      "msft").is_valid_symbol = false ∧
    (symbolInputStep { initSession with is_valid_symbol := true }
      "msft").last_input_symbol = some (effectiveSymbol "msft") :=
  edit_resets_validity { initSession with is_valid_symbol := true } "msft"
    (by decide)

/-- C8: account deletion removes the user's history rows, then favorites
rows, then the user record, in that order; a throw at any step reports False
and keeps the deletions already performed — history-step failure changes
nothing, favorites-step failure keeps the history delete, user-step failure
keeps the history and favorites deletes. -/
theorem delete_account_cascade_no_rollback (user : String) (db : DB)
    (f g : Bool) :
    delete_account user db false false false =
      (true,
        { users := db.users.filter (fun u => u ≠ user)
          history := db.history.filter (fun r => r.1 ≠ user)
          favorites := db.favorites.filter (fun r => r.1 ≠ user) }) ∧
    delete_account user db true f g = (false, db) ∧
    delete_account user db false true g =
      (false, { db with history := db.history.filter (fun r => r.1 ≠ user) }) ∧
    delete_account user db false false true =
      (false,
        { db with
          history := db.history.filter (fun r => r.1 ≠ user)
          favorites := db.favorites.filter (fun r => r.1 ≠ user) }) :=
  ⟨rfl, rfl, rfl, rfl⟩

/-- C10: selecting a symbol from the sidebar favorites or recent-search list
stores it as the session symbol and resets the validity flag to False, so any
favorite-add attempted right after is refused; after a subsequent successful
forecast for a non-blank symbol, the favorite-add is accepted again. -/
theorem sidebar_select_requires_revalidation (s : SessionState)
    (sym sym2 : String) (ok : Bool) (hist : List String) (n : Nat)
    (hn : 10 ≤ n) (hsym2 : pyStrip sym2 ≠ "") :
    (sidebarSelect s sym).search_symbol = sym ∧
    (sidebarSelect s sym).is_valid_symbol = false ∧
    favoriteAddAction (sidebarSelect s sym) sym2 ok ≠ FavAddOutcome.added ∧
    favoriteAddAction
      (predictStep (sidebarSelect s sym) hist sym2 (FetchOutcome.returns n)
        FitOutcome.fits).session sym2 true = FavAddOutcome.added := by
  have hsel : (sidebarSelect s sym).search_symbol = sym ∧
      (sidebarSelect s sym).is_valid_symbol = false := by
    unfold sidebarSelect
    cases s.ticker_search_input <;> exact ⟨rfl, rfl⟩
  have hreject : ∀ st : SessionState, st.is_valid_symbol = false →
      favoriteAddAction st sym2 ok ≠ FavAddOutcome.added := by
    intro st hst
    unfold favoriteAddAction
    rw [if_neg hsym2, if_pos hst]
    intro hcon
    exact FavAddOutcome.noConfusion hcon
  have hvalid : (predictStep (sidebarSelect s sym) hist sym2
      (FetchOutcome.returns n) FitOutcome.fits).session.is_valid_symbol
        = true := by
    have hge : ¬(n = 0 ∨ n < 10) := by omega
    simp [predictStep, hsym2, hge]
  refine ⟨hsel.1, hsel.2, hreject _ hsel.2, ?_⟩
  unfold favoriteAddAction
  rw [if_neg hsym2, if_neg (by simp [hvalid]), if_pos rfl]

/-- C10 (witness): after a sidebar click on TSLA, adding TSLA as a favorite
is refused until the forecast is re-run. -/
theorem sidebar_select_requires_revalidation_witness :
    favoriteAddAction (sidebarSelect initSession "TSLA") "TSLA" true ≠
      FavAddOutcome.added :=
  (sidebar_select_requires_revalidation initSession "TSLA" "TSLA" true [] 100
    (by decide) (by decide)).2.2.1

end StockApp
